import Mathlib

/-!
Shallow embedding of the event-management repository's registration core:
the entity models (src/src/models/Event.js: classes Event and User) and the
in-memory store (src/src/models/memoryStore.js: class MemoryStore).

Modelling conventions:
- JS identifiers (uuid strings) are modelled as Nat.
- Instants are modelled as Int minutes; an event's date field holds the
  midnight instant of its calendar day, and the HH:MM time string is the
  parsed pair (hours, minutes).
- JS Map objects become functions Nat -> Option _, JS Set objects become
  Finset Nat (a JS Set never holds duplicates).
- Each mutating store method becomes a pure function returning its JS
  return value paired with the successor store.
-/

namespace EventMgmt

/-- Status enumeration of Event.js line 33. -/
inductive Status where
  | upcoming
  | ongoing
  | completed
  | cancelled
deriving DecidableEq

/-- User record, fields of the User constructor (Event.js companion class User). -/
structure User where
  id : Nat
  email : String
  password : String
  firstName : String
  lastName : String
  role : String
  createdAt : Int
  updatedAt : Int
  isActive : Bool
deriving DecidableEq

/-- Event record, fields of the Event constructor. -/
structure Event where
  id : Nat
  title : String
  description : String
  date : Int
  time : Nat × Nat
  duration : Nat
  location : String
  maxParticipants : Option Nat
  organizerId : Nat
  category : String
  isPublic : Bool
  createdAt : Int
  updatedAt : Int
  isActive : Bool
  status : Status
deriving DecidableEq

/-- Partial-field map handed to User.update or to MemoryStore.updateUser
(Object.assign). Absent keys are none. -/
structure UserUpdates where
  id : Option Nat := none
  email : Option String := none
  password : Option String := none
  firstName : Option String := none
  lastName : Option String := none
  role : Option String := none
  createdAt : Option Int := none
  updatedAt : Option Int := none
  isActive : Option Bool := none
deriving DecidableEq

/-- Partial-field map handed to Event.update or to MemoryStore.updateEvent. -/
structure EventUpdates where
  id : Option Nat := none
  title : Option String := none
  description : Option String := none
  date : Option Int := none
  time : Option (Nat × Nat) := none
  duration : Option Nat := none
  location : Option String := none
  maxParticipants : Option (Option Nat) := none
  organizerId : Option Nat := none
  category : Option String := none
  isPublic : Option Bool := none
  createdAt : Option Int := none
  updatedAt : Option Int := none
  isActive : Option Bool := none
  status : Option Status := none
deriving DecidableEq

/-- Event.getDateTime (Event.js lines 37-42): combine the date's midnight
instant with the parsed HH:MM time, in minutes. -/
def Event.getDateTime (e : Event) : Int :=
  e.date + ((60 * e.time.1 + e.time.2 : Nat) : Int)

/-- Event.updateStatus (Event.js lines 57-76), with the wall clock passed
explicitly. Returns the JS return value (the status) and the mutated event. -/
def Event.updateStatus (e : Event) (now : Int) : Status × Event :=
  let startTime := e.getDateTime
  let endTime := startTime + (e.duration : Int)
  if e.status = Status.cancelled then
    (e.status, e)
  else
    let st : Status :=
      if now < startTime then Status.upcoming
      else if startTime ≤ now ∧ now ≤ endTime then Status.ongoing
      else Status.completed
    (st, { e with status := st })

/-- Event.isFull (Event.js lines 79-81). -/
def Event.isFull (e : Event) (currentParticipants : Nat) : Bool :=
  match e.maxParticipants with
  | none => false
  | some m => decide (currentParticipants ≥ m)

/-- Event.update (Event.js lines 84-100): apply only the allow-listed keys,
then stamp updatedAt with the current time. -/
def Event.update (e : Event) (updates : EventUpdates) (now : Int) : Event :=
  { e with
    title := updates.title.getD e.title
    description := updates.description.getD e.description
    date := updates.date.getD e.date
    time := updates.time.getD e.time
    duration := updates.duration.getD e.duration
    location := updates.location.getD e.location
    maxParticipants := updates.maxParticipants.getD e.maxParticipants
    category := updates.category.getD e.category
    isPublic := updates.isPublic.getD e.isPublic
    status := updates.status.getD e.status
    updatedAt := now }

/-- User.update (User class, lines 220-228 of the combined models file):
apply only the allow-listed keys, then stamp updatedAt. -/
def User.update (u : User) (updates : UserUpdates) (now : Int) : User :=
  { u with
    firstName := updates.firstName.getD u.firstName
    lastName := updates.lastName.getD u.lastName
    email := updates.email.getD u.email
    role := updates.role.getD u.role
    isActive := updates.isActive.getD u.isActive
    updatedAt := now }

/-- Date branch of Event.validate (Event.js lines 122-131): a missing date
is one error, a date before the midnight starting the creation's calendar
day is another. An unparseable date (NaN) is not representable in the
integer instant model. -/
def dateCheckErrors (date : Option Int) (todayStart : Int) : List String :=
  match date with
  | none => ["Date is required"]
  | some d => if d < todayStart then ["Event date cannot be in the past"] else []

/-- Object.assign merge used by MemoryStore.updateUser: every present key
overwrites the record field, with no allow-list. -/
def assignUser (u : User) (updates : UserUpdates) : User :=
  { id := updates.id.getD u.id
    email := updates.email.getD u.email
    password := updates.password.getD u.password
    firstName := updates.firstName.getD u.firstName
    lastName := updates.lastName.getD u.lastName
    role := updates.role.getD u.role
    createdAt := updates.createdAt.getD u.createdAt
    updatedAt := updates.updatedAt.getD u.updatedAt
    isActive := updates.isActive.getD u.isActive }

/-- Object.assign merge used by MemoryStore.updateEvent. -/
def assignEvent (e : Event) (updates : EventUpdates) : Event :=
  { id := updates.id.getD e.id
    title := updates.title.getD e.title
    description := updates.description.getD e.description
    date := updates.date.getD e.date
    time := updates.time.getD e.time
    duration := updates.duration.getD e.duration
    location := updates.location.getD e.location
    maxParticipants := updates.maxParticipants.getD e.maxParticipants
    organizerId := updates.organizerId.getD e.organizerId
    category := updates.category.getD e.category
    isPublic := updates.isPublic.getD e.isPublic
    createdAt := updates.createdAt.getD e.createdAt
    updatedAt := updates.updatedAt.getD e.updatedAt
    isActive := updates.isActive.getD e.isActive
    status := updates.status.getD e.status }

/-- Point update of a JS Map modelled as a function. -/
def updF {α : Type} (f : Nat → Option α) (k : Nat) (v : Option α) : Nat → Option α :=
  fun j => if j = k then v else f j

/-- The four cross-indexed collections of memoryStore.js lines 6-11. -/
@[ext]
structure MemoryStore where
  users : Nat → Option User
  events : Nat → Option Event
  eventRegistrations : Nat → Option (Finset Nat)
  userRegistrations : Nat → Option (Finset Nat)

namespace MemoryStore

/-- Freshly constructed store (the constructor). -/
def empty : MemoryStore :=
  { users := fun _ => none
    events := fun _ => none
    eventRegistrations := fun _ => none
    userRegistrations := fun _ => none }

/-- memoryStore.js lines 14-18. -/
def createUser (s : MemoryStore) (user : User) : User × MemoryStore :=
  (user,
    { s with
      users := updF s.users user.id (some user)
      userRegistrations := updF s.userRegistrations user.id (some ∅) })

/-- memoryStore.js lines 20-22. -/
def getUserById (s : MemoryStore) (id : Nat) : Option User :=
  s.users id

/-- memoryStore.js lines 37-45. -/
def updateUser (s : MemoryStore) (id : Nat) (updates : UserUpdates) :
    Option User × MemoryStore :=
  match s.users id with
  | some user =>
      let u := assignUser user updates
      (some u, { s with users := updF s.users id (some u) })
  | none => (none, s)

/-- memoryStore.js lines 47-61: remove the record and its registration set,
then scan every participant set and drop this user id. -/
def deleteUser (s : MemoryStore) (id : Nat) : Option User × MemoryStore :=
  match s.users id with
  | some user =>
      (some user,
        { s with
          users := updF s.users id none
          userRegistrations := updF s.userRegistrations id none
          eventRegistrations := fun k =>
            (s.eventRegistrations k).map (fun regs => regs.erase id) })
  | none => (none, s)

/-- memoryStore.js lines 64-68. -/
def createEvent (s : MemoryStore) (event : Event) : Event × MemoryStore :=
  (event,
    { s with
      events := updF s.events event.id (some event)
      eventRegistrations := updF s.eventRegistrations event.id (some ∅) })

/-- memoryStore.js lines 70-72. -/
def getEventById (s : MemoryStore) (id : Nat) : Option Event :=
  s.events id

/-- memoryStore.js lines 82-90. -/
def updateEvent (s : MemoryStore) (id : Nat) (updates : EventUpdates) :
    Option Event × MemoryStore :=
  match s.events id with
  | some event =>
      let e := assignEvent event updates
      (some e, { s with events := updF s.events id (some e) })
  | none => (none, s)

/-- memoryStore.js lines 92-110: remove the event, drop its id from the
registration set of every user found in its participant set, then remove
the participant set itself. -/
def deleteEvent (s : MemoryStore) (id : Nat) : Option Event × MemoryStore :=
  match s.events id with
  | some event =>
      let registeredUsers := (s.eventRegistrations id).getD ∅
      (some event,
        { s with
          events := updF s.events id none
          userRegistrations := fun k =>
            if k ∈ registeredUsers then
              (s.userRegistrations k).map (fun evs => evs.erase id)
            else s.userRegistrations k
          eventRegistrations := updF s.eventRegistrations id none })
  | none => (none, s)

/-- memoryStore.js lines 113-140. The membership test renders the JS
short-circuit (entry exists and contains the user) since a missing entry
reads as the empty set. -/
def registerUserForEvent (s : MemoryStore) (userId eventId : Nat) :
    Bool × MemoryStore :=
  match s.users userId, s.events eventId with
  | some _, some _ =>
      if userId ∈ (s.eventRegistrations eventId).getD ∅ then (false, s)
      else
        (true,
          { s with
            eventRegistrations := updF s.eventRegistrations eventId
              (some (insert userId ((s.eventRegistrations eventId).getD ∅)))
            userRegistrations := updF s.userRegistrations userId
              (some (insert eventId ((s.userRegistrations userId).getD ∅))) })
  | _, _ => (false, s)

/-- memoryStore.js lines 142-155: delete from each side's entry when that
entry exists, and return true unconditionally. -/
def unregisterUserFromEvent (s : MemoryStore) (userId eventId : Nat) :
    Bool × MemoryStore :=
  (true,
    { s with
      eventRegistrations := updF s.eventRegistrations eventId
        ((s.eventRegistrations eventId).map (fun regs => regs.erase userId))
      userRegistrations := updF s.userRegistrations userId
        ((s.userRegistrations userId).map (fun evs => evs.erase eventId)) })

/-- memoryStore.js lines 162-165: map the stored event ids through the
events map and silently drop the ids that no longer resolve. -/
def getUserRegistrations (s : MemoryStore) (userId : Nat) : Multiset Event :=
  Multiset.filterMap (fun eventId => s.events eventId)
    ((s.userRegistrations userId).getD ∅).val

/-- memoryStore.js lines 167-170. -/
def isUserRegisteredForEvent (s : MemoryStore) (userId eventId : Nat) : Bool :=
  match s.eventRegistrations eventId with
  | some regs => decide (userId ∈ regs)
  | none => false

/-- memoryStore.js lines 172-175. -/
def getEventRegistrationCount (s : MemoryStore) (eventId : Nat) : Nat :=
  match s.eventRegistrations eventId with
  | some regs => regs.card
  | none => 0

/-- memoryStore.js lines 195-200. -/
def clear (_ : MemoryStore) : MemoryStore :=
  empty

end MemoryStore

/-- Participant set of an event: a missing entry reads as empty, as in
isUserRegisteredForEvent and getEventRegistrationCount. -/
def participantSet (s : MemoryStore) (eventId : Nat) : Finset Nat :=
  (s.eventRegistrations eventId).getD ∅

/-- Registration set of a user, with the same missing-entry convention. -/
def registrationSet (s : MemoryStore) (userId : Nat) : Finset Nat :=
  (s.userRegistrations userId).getD ∅

/-- Mirror consistency: an edge is present on the event side iff it is
present on the user side. -/
def MirrorConsistent (s : MemoryStore) : Prop :=
  ∀ userId eventId : Nat,
    userId ∈ participantSet s eventId ↔ eventId ∈ registrationSet s userId

/-- One mutating call of the store interface. -/
inductive Op where
  | createUser (u : User)
  | createEvent (e : Event)
  | updateUser (id : Nat) (updates : UserUpdates)
  | updateEvent (id : Nat) (updates : EventUpdates)
  | deleteUser (id : Nat)
  | deleteEvent (id : Nat)
  | registerUserForEvent (userId eventId : Nat)
  | unregisterUserFromEvent (userId eventId : Nat)
  | clear
deriving DecidableEq

/-- State effect of one store call (the JS return value is discarded). -/
def applyOp (s : MemoryStore) : Op → MemoryStore
  | Op.createUser u => (s.createUser u).2
  | Op.createEvent e => (s.createEvent e).2
  | Op.updateUser id updates => (s.updateUser id updates).2
  | Op.updateEvent id updates => (s.updateEvent id updates).2
  | Op.deleteUser id => (s.deleteUser id).2
  | Op.deleteEvent id => (s.deleteEvent id).2
  | Op.registerUserForEvent userId eventId => (s.registerUserForEvent userId eventId).2
  | Op.unregisterUserFromEvent userId eventId => (s.unregisterUserFromEvent userId eventId).2
  | Op.clear => s.clear

/-- Run a call sequence from a given store state. -/
def runOps (s : MemoryStore) : List Op → MemoryStore
  | [] => s
  | op :: rest => runOps (applyOp s op) rest

/-- Every createUser / createEvent in the sequence uses an identifier not
currently stored, matching the uuid generation scheme the store relies on. -/
def freshIds (s : MemoryStore) : List Op → Bool
  | [] => true
  | Op.createUser u :: rest =>
      (s.users u.id).isNone && freshIds (applyOp s (Op.createUser u)) rest
  | Op.createEvent e :: rest =>
      (s.events e.id).isNone && freshIds (applyOp s (Op.createEvent e)) rest
  | Op.updateUser id updates :: rest =>
      freshIds (applyOp s (Op.updateUser id updates)) rest
  | Op.updateEvent id updates :: rest =>
      freshIds (applyOp s (Op.updateEvent id updates)) rest
  | Op.deleteUser id :: rest => freshIds (applyOp s (Op.deleteUser id)) rest
  | Op.deleteEvent id :: rest => freshIds (applyOp s (Op.deleteEvent id)) rest
  | Op.registerUserForEvent userId eventId :: rest =>
      freshIds (applyOp s (Op.registerUserForEvent userId eventId)) rest
  | Op.unregisterUserFromEvent userId eventId :: rest =>
      freshIds (applyOp s (Op.unregisterUserFromEvent userId eventId)) rest
  | Op.clear :: rest => freshIds (applyOp s Op.clear) rest

/-- Inductive invariant of the store: mirror consistency plus liveness of
every id appearing in a registration set. -/
structure Invariant (s : MemoryStore) : Prop where
  mirror : MirrorConsistent s
  partLive : ∀ userId eventId : Nat,
    userId ∈ participantSet s eventId → (s.users userId).isSome
  regLive : ∀ userId eventId : Nat,
    eventId ∈ registrationSet s userId → (s.events eventId).isSome

/-- Sample attendee. -/
def user1 : User :=
  { id := 1, email := "a@b.c", password := "secret1", firstName := "A"
    lastName := "B", role := "attendee", createdAt := 0, updatedAt := 0
    isActive := true }

/-- Second record carrying the same identifier as user1. -/
def user1b : User :=
  { user1 with firstName := "Z" }

/-- Sample event: starts at minute 720 of day 0, runs 60 minutes. -/
def event1 : Event :=
  { id := 100, title := "T", description := "D", date := 0, time := (12, 0)
    duration := 60, location := "L", maxParticipants := none, organizerId := 1
    category := "General", isPublic := true, createdAt := 0, updatedAt := 0
    isActive := true, status := Status.upcoming }

/-- Sample event with a two-seat capacity. -/
def event2 : Event :=
  { event1 with id := 200, maxParticipants := some 2 }

/-- Store holding user1 and event1, no registrations. -/
def demoStore : MemoryStore :=
  ((MemoryStore.empty.createUser user1).2.createEvent event1).2

/-- Store holding user1 and event1 with user 1 registered for event 100. -/
def demoStore2 : MemoryStore :=
  (demoStore.registerUserForEvent 1 100).2

/-- Call sequence that re-creates an already-stored user id after a
registration touching it. -/
def dupCreateOps : List Op :=
  [Op.createUser user1, Op.createEvent event1,
   Op.registerUserForEvent 1 100, Op.createUser user1b]

/-- Call sequence whose creates all use fresh identifiers. -/
def freshOps : List Op :=
  [Op.createUser user1, Op.createEvent event1,
   Op.registerUserForEvent 1 100, Op.createEvent event2,
   Op.registerUserForEvent 1 200, Op.unregisterUserFromEvent 1 100,
   Op.deleteEvent 200]

lemma updF_same {α : Type} (f : Nat → Option α) (k : Nat) (v : Option α) :
    updF f k v k = v :=
  if_pos rfl

lemma updF_ne {α : Type} (f : Nat → Option α) (k : Nat) (v : Option α)
    (j : Nat) (h : j ≠ k) : updF f k v j = f j :=
  if_neg h

lemma getD_map_erase (o : Option (Finset Nat)) (x : Nat) :
    ((o.map fun t => t.erase x).getD ∅) = (o.getD ∅).erase x := by
  cases o <;> simp

lemma count_eq_card (s : MemoryStore) (eventId : Nat) :
    s.getEventRegistrationCount eventId = (participantSet s eventId).card := by
  cases h : s.eventRegistrations eventId <;>
    simp [MemoryStore.getEventRegistrationCount, participantSet, h]

lemma isReg_eq (s : MemoryStore) (userId eventId : Nat) :
    s.isUserRegisteredForEvent userId eventId
      = decide (userId ∈ participantSet s eventId) := by
  cases h : s.eventRegistrations eventId <;>
    simp [MemoryStore.isUserRegisteredForEvent, participantSet, h]

/-- C10: Event.update only touches the allow-listed keys plus updatedAt, so
id, organizerId, createdAt and isActive survive any partial-field map;
User.update likewise never touches id, password or createdAt. -/
theorem update_frame_allowlist (e : Event) (eu : EventUpdates) (now : Int)
    (u : User) (uu : UserUpdates) (now2 : Int) :
    ((e.update eu now).id = e.id
      ∧ (e.update eu now).organizerId = e.organizerId
      ∧ (e.update eu now).createdAt = e.createdAt
      ∧ (e.update eu now).isActive = e.isActive
      ∧ (e.update eu now).updatedAt = now)
    ∧ ((u.update uu now2).id = u.id
      ∧ (u.update uu now2).password = u.password
      ∧ (u.update uu now2).createdAt = u.createdAt
      ∧ (u.update uu now2).updatedAt = now2) :=
  ⟨⟨rfl, rfl, rfl, rfl, rfl⟩, ⟨rfl, rfl, rfl, rfl⟩⟩

/-- C8: isFull is false for an unset maxParticipants, and otherwise holds
exactly when the participant count has reached the bound; with a bound of 2
the first two registrations pass and the third reports full. -/
theorem isFull_capacity (e : Event) (n m : Nat) :
    (e.maxParticipants = none → e.isFull n = false)
    ∧ (e.maxParticipants = some m → (e.isFull n = true ↔ m ≤ n))
    ∧ (e.maxParticipants = some 2 →
        e.isFull 0 = false ∧ e.isFull 1 = false ∧ e.isFull 2 = true) := by
  refine ⟨fun h => ?_, fun h => ?_, fun h => ?_⟩
  · simp [Event.isFull, h]
  · simp [Event.isFull, h, ge_iff_le]
  · simp [Event.isFull, h]

/-- C8 witness: the two-seat sample event admits counts 0 and 1 and is full
at count 2. -/
theorem isFull_capacity_witness :
    event2.isFull 0 = false ∧ event2.isFull 1 = false ∧ event2.isFull 2 = true :=
  (isFull_capacity event2 0 2).2.2 rfl

/-- C7: for a well-formed input (a date aligned to a day's midnight and an
HH:MM time), the past-date error fires exactly when the combined date+time
instant lies before the midnight starting the creation's calendar day. -/
theorem past_date_validation (e : Event) (todayStart k j : Int)
    (hd : e.date = 1440 * k) (hT : todayStart = 1440 * j)
    (hh : e.time.1 < 24) (hm : e.time.2 < 60) :
    ("Event date cannot be in the past" ∈ dateCheckErrors (some e.date) todayStart)
      ↔ e.getDateTime < todayStart := by
  unfold dateCheckErrors Event.getDateTime
  by_cases hlt : e.date < todayStart
  · simp only [if_pos hlt, List.mem_singleton, true_iff]
    omega
  · simp only [if_neg hlt, List.not_mem_nil, false_iff, not_lt]
    omega

/-- C7 witness: the sample event dated at day 0 is rejected when creation
happens on day 1. -/
theorem past_date_validation_witness :
    "Event date cannot be in the past" ∈ dateCheckErrors (some event1.date) 1440 :=
  (past_date_validation event1 1440 0 1 rfl rfl (by decide) (by decide)).mpr (by decide)

/-- C3: updateStatus leaves a cancelled event untouched and returns
cancelled; otherwise it stores and returns upcoming before the start
instant, ongoing inside the closed window of start plus duration minutes,
and completed after it. -/
theorem updateStatus_machine (e : Event) (now : Int) :
    (e.status = Status.cancelled → e.updateStatus now = (Status.cancelled, e))
    ∧ (e.status ≠ Status.cancelled →
        (now < e.getDateTime →
          e.updateStatus now = (Status.upcoming, { e with status := Status.upcoming }))
        ∧ (e.getDateTime ≤ now → now ≤ e.getDateTime + (e.duration : Int) →
          e.updateStatus now = (Status.ongoing, { e with status := Status.ongoing }))
        ∧ (e.getDateTime + (e.duration : Int) < now →
          e.updateStatus now = (Status.completed, { e with status := Status.completed }))) := by
  refine ⟨fun h => ?_, fun h => ⟨fun hlt => ?_, fun h1 h2 => ?_, fun hgt => ?_⟩⟩
  · simp [Event.updateStatus, h]
  · simp [Event.updateStatus, h, hlt]
  · simp [Event.updateStatus, h, not_lt.mpr h1, h1, h2]
  · have h1 : ¬ now < e.getDateTime := by omega
    have h2 : ¬ now ≤ e.getDateTime + (e.duration : Int) := by omega
    simp [Event.updateStatus, h, h1, h2]

/-- C3 witness: at minute 720 the sample event sits exactly at its start
instant, so updateStatus stores and returns ongoing. -/
theorem updateStatus_machine_witness :
    event1.updateStatus 720 = (Status.ongoing, { event1 with status := Status.ongoing }) :=
  ((updateStatus_machine event1 720).2 (by decide)).2.1 (by decide) (by decide)

/-- C6 counterexample: with user id 1 live and registered for event 100,
createUser on a record reusing id 1 does not fail: it replaces the stored
record and resets the registration set to empty. -/
theorem createUser_duplicate_overwrites :
    demoStore2.users 1 = some user1
    ∧ demoStore2.userRegistrations 1 = some {100}
    ∧ (demoStore2.createUser user1b).2.users 1 = some user1b
    ∧ user1b ≠ user1
    ∧ (demoStore2.createUser user1b).2.userRegistrations 1 = some ∅ := by
  refine ⟨by decide, by decide, by decide, by decide, by decide⟩

/-- C6 amended: createUser unconditionally stores the record under its id
and installs an empty registration set, overwriting any record and set
already present under that id; all other keys and the event-side
collections are untouched. -/
theorem createUser_inserts (s : MemoryStore) (user : User) :
    (s.createUser user).1 = user
    ∧ (s.createUser user).2.users user.id = some user
    ∧ (s.createUser user).2.userRegistrations user.id = some ∅
    ∧ (∀ k, k ≠ user.id →
        (s.createUser user).2.users k = s.users k
          ∧ (s.createUser user).2.userRegistrations k = s.userRegistrations k)
    ∧ (s.createUser user).2.events = s.events
    ∧ (s.createUser user).2.eventRegistrations = s.eventRegistrations := by
  refine ⟨rfl, ?_, ?_, fun k hk => ⟨?_, ?_⟩, rfl, rfl⟩
  · exact updF_same s.users user.id (some user)
  · exact updF_same s.userRegistrations user.id (some ∅)
  · exact updF_ne s.users user.id (some user) k hk
  · exact updF_ne s.userRegistrations user.id (some ∅) k hk

/-- C6 amended witness: re-creating id 1 overwrites the record and resets
the set, while the unrelated key 2 is untouched. -/
theorem createUser_inserts_witness :
    (demoStore2.createUser user1b).2.users user1b.id = some user1b
    ∧ (demoStore2.createUser user1b).2.users 2 = demoStore2.users 2 :=
  ⟨(createUser_inserts demoStore2 user1b).2.1,
   ((createUser_inserts demoStore2 user1b).2.2.2.1 2 (by decide)).1⟩

lemma register_failure (s : MemoryStore) (userId eventId : Nat)
    (h : s.users userId = none ∨ s.events eventId = none
      ∨ userId ∈ participantSet s eventId) :
    s.registerUserForEvent userId eventId = (false, s) := by
  unfold MemoryStore.registerUserForEvent
  rcases h with h | h | h
  · rw [h]
  · rw [h]; cases s.users userId <;> rfl
  · cases hu : s.users userId with
    | none => cases s.events eventId <;> rfl
    | some x =>
        cases he : s.events eventId with
        | none => rfl
        | some y => exact if_pos h

lemma register_success (s : MemoryStore) {userId eventId : Nat} {u : User}
    {ev : Event} (hu : s.users userId = some u) (he : s.events eventId = some ev)
    (hn : userId ∉ participantSet s eventId) :
    s.registerUserForEvent userId eventId =
      (true,
        { s with
          eventRegistrations := updF s.eventRegistrations eventId
            (some (insert userId (participantSet s eventId)))
          userRegistrations := updF s.userRegistrations userId
            (some (insert eventId (registrationSet s userId))) }) := by
  unfold MemoryStore.registerUserForEvent
  rw [hu, he]
  exact if_neg hn

/-- C2: registerUserForEvent returns false and leaves the store untouched
when the user id or the event id is absent or the pair is already
registered; otherwise it installs the edge on both sides, returns true, a
repeated call returns false, and the event's registration count grows by
exactly one. -/
theorem register_contract (s : MemoryStore) (userId eventId : Nat)
    (u : User) (ev : Event) :
    ((s.users userId = none ∨ s.events eventId = none
        ∨ userId ∈ participantSet s eventId) →
      s.registerUserForEvent userId eventId = (false, s))
    ∧ (s.users userId = some u → s.events eventId = some ev →
        userId ∉ participantSet s eventId →
        (s.registerUserForEvent userId eventId).1 = true
        ∧ userId ∈ participantSet (s.registerUserForEvent userId eventId).2 eventId
        ∧ eventId ∈ registrationSet (s.registerUserForEvent userId eventId).2 userId
        ∧ ((s.registerUserForEvent userId eventId).2.registerUserForEvent
            userId eventId).1 = false
        ∧ (s.registerUserForEvent userId eventId).2.getEventRegistrationCount
            eventId = s.getEventRegistrationCount eventId + 1) := by
  refine ⟨register_failure s userId eventId, fun hu he hn => ?_⟩
  rw [register_success s hu he hn]
  have hpart : participantSet
      { s with
        eventRegistrations := updF s.eventRegistrations eventId
          (some (insert userId (participantSet s eventId)))
        userRegistrations := updF s.userRegistrations userId
          (some (insert eventId (registrationSet s userId))) } eventId
      = insert userId (participantSet s eventId) := by
    simp [participantSet, updF_same]
  refine ⟨rfl, ?_, ?_, ?_, ?_⟩
  · rw [hpart]; exact Finset.mem_insert_self userId _
  · show eventId ∈ (updF s.userRegistrations userId
      (some (insert eventId (registrationSet s userId))) userId).getD ∅
    rw [updF_same]; exact Finset.mem_insert_self eventId _
  · rw [register_failure _ userId eventId
      (Or.inr (Or.inr (by rw [hpart]; exact Finset.mem_insert_self userId _)))]
  · rw [count_eq_card, count_eq_card, hpart]
    exact Finset.card_insert_of_not_mem hn

/-- C2 witness: in the demo store, registering user 1 for event 100
succeeds, installs the edge on both sides, fails when repeated, and raises
the count from 0 to 1. -/
theorem register_contract_witness :
    (demoStore.registerUserForEvent 1 100).1 = true
    ∧ 1 ∈ participantSet (demoStore.registerUserForEvent 1 100).2 100
    ∧ 100 ∈ registrationSet (demoStore.registerUserForEvent 1 100).2 1
    ∧ ((demoStore.registerUserForEvent 1 100).2.registerUserForEvent 1 100).1 = false
    ∧ (demoStore.registerUserForEvent 1 100).2.getEventRegistrationCount 100
        = demoStore.getEventRegistrationCount 100 + 1 :=
  (register_contract demoStore 1 100 user1 event1).2 (by decide) (by decide) (by decide)

lemma partSet_unregister (s : MemoryStore) (userId eventId E : Nat) :
    participantSet (s.unregisterUserFromEvent userId eventId).2 E
      = if E = eventId then (participantSet s eventId).erase userId
        else participantSet s E := by
  by_cases h : E = eventId
  · subst h
    show ((updF s.eventRegistrations E
        ((s.eventRegistrations E).map (fun regs => regs.erase userId))) E).getD ∅ = _
    rw [updF_same, if_pos rfl]
    exact getD_map_erase _ _
  · show ((updF s.eventRegistrations eventId
        ((s.eventRegistrations eventId).map (fun regs => regs.erase userId))) E).getD ∅ = _
    rw [updF_ne _ _ _ _ h, if_neg h]
    rfl

lemma regSet_unregister (s : MemoryStore) (userId eventId U : Nat) :
    registrationSet (s.unregisterUserFromEvent userId eventId).2 U
      = if U = userId then (registrationSet s userId).erase eventId
        else registrationSet s U := by
  by_cases h : U = userId
  · subst h
    show ((updF s.userRegistrations U
        ((s.userRegistrations U).map (fun evs => evs.erase eventId))) U).getD ∅ = _
    rw [updF_same, if_pos rfl]
    exact getD_map_erase _ _
  · show ((updF s.userRegistrations userId
        ((s.userRegistrations userId).map (fun evs => evs.erase eventId))) U).getD ∅ = _
    rw [updF_ne _ _ _ _ h, if_neg h]
    rfl

lemma unregister_no_edge (s : MemoryStore) (userId eventId : Nat)
    (h1 : userId ∉ participantSet s eventId)
    (h2 : eventId ∉ registrationSet s userId) :
    (s.unregisterUserFromEvent userId eventId).2 = s := by
  refine MemoryStore.ext rfl rfl ?_ ?_
  · funext j
    by_cases hj : j = eventId
    · subst hj
      show updF s.eventRegistrations j
        ((s.eventRegistrations j).map (fun regs => regs.erase userId)) j
          = s.eventRegistrations j
      rw [updF_same]
      cases ho : s.eventRegistrations j with
      | none => rfl
      | some regs =>
          have : userId ∉ regs := by
            simpa [participantSet, ho] using h1
          simp [Finset.erase_eq_of_not_mem this]
    · exact updF_ne _ _ _ _ hj
  · funext j
    by_cases hj : j = userId
    · subst hj
      show updF s.userRegistrations j
        ((s.userRegistrations j).map (fun evs => evs.erase eventId)) j
          = s.userRegistrations j
      rw [updF_same]
      cases ho : s.userRegistrations j with
      | none => rfl
      | some evs =>
          have : eventId ∉ evs := by
            simpa [registrationSet, ho] using h2
          simp [Finset.erase_eq_of_not_mem this]
    · exact updF_ne _ _ _ _ hj

/-- C9: unregisterUserFromEvent always returns true, removes the pair from
both mirrored indexes, leaves the store untouched when no edge exists on
either side, and repeating the call leaves the once-unregistered store
fixed. -/
theorem unregister_idempotent (s : MemoryStore) (userId eventId : Nat) :
    (s.unregisterUserFromEvent userId eventId).1 = true
    ∧ userId ∉ participantSet (s.unregisterUserFromEvent userId eventId).2 eventId
    ∧ eventId ∉ registrationSet (s.unregisterUserFromEvent userId eventId).2 userId
    ∧ (userId ∉ participantSet s eventId → eventId ∉ registrationSet s userId →
        (s.unregisterUserFromEvent userId eventId).2 = s)
    ∧ (s.unregisterUserFromEvent userId eventId).2.unregisterUserFromEvent
        userId eventId = (true, (s.unregisterUserFromEvent userId eventId).2) := by
  have hp : userId ∉ participantSet (s.unregisterUserFromEvent userId eventId).2 eventId := by
    rw [partSet_unregister, if_pos rfl]
    exact Finset.not_mem_erase userId _
  have hr : eventId ∉ registrationSet (s.unregisterUserFromEvent userId eventId).2 userId := by
    rw [regSet_unregister, if_pos rfl]
    exact Finset.not_mem_erase eventId _
  refine ⟨rfl, hp, hr, unregister_no_edge s userId eventId, ?_⟩
  exact Prod.ext rfl (unregister_no_edge _ userId eventId hp hr)

/-- C9 witness: unregistering the non-existent edge (1, 100) in the demo
store returns true and leaves the store unchanged. -/
theorem unregister_idempotent_witness :
    (demoStore.unregisterUserFromEvent 1 100).1 = true
    ∧ (demoStore.unregisterUserFromEvent 1 100).2 = demoStore :=
  ⟨(unregister_idempotent demoStore 1 100).1,
   (unregister_idempotent demoStore 1 100).2.2.2.1 (by decide) (by decide)⟩

lemma deleteUser_none (s : MemoryStore) {id : Nat} (hu : s.users id = none) :
    s.deleteUser id = (none, s) := by
  unfold MemoryStore.deleteUser
  rw [hu]

lemma deleteUser_some (s : MemoryStore) {id : Nat} {u : User}
    (hu : s.users id = some u) :
    s.deleteUser id =
      (some u,
        { s with
          users := updF s.users id none
          userRegistrations := updF s.userRegistrations id none
          eventRegistrations := fun k =>
            (s.eventRegistrations k).map (fun regs => regs.erase id) }) := by
  unfold MemoryStore.deleteUser
  rw [hu]

lemma partSet_deleteUser (s : MemoryStore) {id : Nat} {u : User}
    (hu : s.users id = some u) (k : Nat) :
    participantSet (s.deleteUser id).2 k = (participantSet s k).erase id := by
  rw [deleteUser_some s hu]
  exact getD_map_erase _ _

/-- C4: deleteUser on an absent id returns the not-found sentinel and
otherwise removes the record and its registration set, removes the id from
every participant set, returns the record, drops the registered-for-event
fact, lowers the event's count by exactly one, and leaves the event
resolvable. -/
theorem deleteUser_cascade (s : MemoryStore) (userId eventId : Nat)
    (u : User) (ev : Event) :
    (s.users userId = none → s.deleteUser userId = (none, s))
    ∧ (s.users userId = some u → s.events eventId = some ev →
        userId ∈ participantSet s eventId →
        (s.deleteUser userId).1 = some u
        ∧ (s.deleteUser userId).2.users userId = none
        ∧ (s.deleteUser userId).2.userRegistrations userId = none
        ∧ (∀ k, userId ∉ participantSet (s.deleteUser userId).2 k)
        ∧ (s.deleteUser userId).2.isUserRegisteredForEvent userId eventId = false
        ∧ s.getEventRegistrationCount eventId
            = (s.deleteUser userId).2.getEventRegistrationCount eventId + 1
        ∧ (s.deleteUser userId).2.getEventById eventId = some ev) := by
  refine ⟨fun h => deleteUser_none s h, fun hu he hmem => ?_⟩
  refine ⟨by rw [deleteUser_some s hu], ?_, ?_, ?_, ?_, ?_, ?_⟩
  · rw [deleteUser_some s hu]
    exact updF_same s.users userId none
  · rw [deleteUser_some s hu]
    exact updF_same s.userRegistrations userId none
  · intro k
    rw [partSet_deleteUser s hu k]
    exact Finset.not_mem_erase userId _
  · rw [isReg_eq, partSet_deleteUser s hu eventId]
    simp
  · rw [count_eq_card, count_eq_card, partSet_deleteUser s hu eventId]
    exact (Finset.card_erase_add_one hmem).symm
  · rw [deleteUser_some s hu]
    exact he

/-- C4 witness: deleting user 1 (registered for event 100) removes the
registration fact, drops the count from 1 to 0, and event 100 survives. -/
theorem deleteUser_cascade_witness :
    (demoStore2.deleteUser 1).1 = some user1
    ∧ demoStore2.isUserRegisteredForEvent 1 100 = true
    ∧ (demoStore2.deleteUser 1).2.isUserRegisteredForEvent 1 100 = false
    ∧ demoStore2.getEventRegistrationCount 100
        = (demoStore2.deleteUser 1).2.getEventRegistrationCount 100 + 1
    ∧ (demoStore2.deleteUser 1).2.getEventById 100 = some event1 := by
  have h := (deleteUser_cascade demoStore2 1 100 user1 event1).2
    (by decide) (by decide) (by decide)
  exact ⟨h.1, by decide, h.2.2.2.2.1, h.2.2.2.2.2.1, h.2.2.2.2.2.2⟩

lemma deleteEvent_none (s : MemoryStore) {id : Nat} (he : s.events id = none) :
    s.deleteEvent id = (none, s) := by
  unfold MemoryStore.deleteEvent
  rw [he]

lemma deleteEvent_some (s : MemoryStore) {id : Nat} {ev : Event}
    (he : s.events id = some ev) :
    s.deleteEvent id =
      (some ev,
        { s with
          events := updF s.events id none
          userRegistrations := fun k =>
            if k ∈ participantSet s id then
              (s.userRegistrations k).map (fun evs => evs.erase id)
            else s.userRegistrations k
          eventRegistrations := updF s.eventRegistrations id none }) := by
  unfold MemoryStore.deleteEvent
  rw [he]
  rfl

lemma regSet_deleteEvent (s : MemoryStore) {id : Nat} {ev : Event}
    (he : s.events id = some ev) (k : Nat) (hk : k ∈ participantSet s id) :
    registrationSet (s.deleteEvent id).2 k = (registrationSet s k).erase id := by
  rw [deleteEvent_some s he]
  show ((if k ∈ participantSet s id then
      (s.userRegistrations k).map (fun evs => evs.erase id)
    else s.userRegistrations k)).getD ∅ = _
  rw [if_pos hk]
  exact getD_map_erase _ _

/-- C5: deleteEvent on an absent id returns the not-found sentinel and
otherwise removes the record and its participant set, removes the event id
from the registration set of every registered user, returns the record,
keeps the user resolvable, and leaves the user's resolved registration
list free of any record stored under the deleted id. -/
theorem deleteEvent_cascade (s : MemoryStore) (userId eventId : Nat)
    (u : User) (ev : Event) :
    (s.events eventId = none → s.deleteEvent eventId = (none, s))
    ∧ (s.events eventId = some ev → s.users userId = some u →
        userId ∈ participantSet s eventId →
        (s.deleteEvent eventId).1 = some ev
        ∧ (s.deleteEvent eventId).2.events eventId = none
        ∧ (s.deleteEvent eventId).2.eventRegistrations eventId = none
        ∧ (∀ k ∈ participantSet s eventId,
            eventId ∉ registrationSet (s.deleteEvent eventId).2 k)
        ∧ eventId ∉ registrationSet (s.deleteEvent eventId).2 userId
        ∧ (s.deleteEvent eventId).2.getUserById userId = some u
        ∧ ((∀ k ∈ registrationSet s userId, ((s.events k).map Event.id).getD k = k) →
            ∀ r ∈ (s.deleteEvent eventId).2.getUserRegistrations userId,
              r.id ≠ eventId)) := by
  refine ⟨fun h => deleteEvent_none s h, fun he hu hmem => ?_⟩
  have hnotmem : ∀ k ∈ participantSet s eventId,
      eventId ∉ registrationSet (s.deleteEvent eventId).2 k := by
    intro k hk
    rw [regSet_deleteEvent s he k hk]
    exact Finset.not_mem_erase eventId _
  refine ⟨by rw [deleteEvent_some s he], ?_, ?_, hnotmem, hnotmem userId hmem, ?_, ?_⟩
  · rw [deleteEvent_some s he]
    exact updF_same s.events eventId none
  · rw [deleteEvent_some s he]
    exact updF_same s.eventRegistrations eventId none
  · rw [deleteEvent_some s he]
    exact hu
  · intro hco r hr
    have hmem2 : r ∈ Multiset.filterMap
        (fun k => (s.deleteEvent eventId).2.events k)
        (registrationSet (s.deleteEvent eventId).2 userId).val := hr
    rw [Multiset.mem_filterMap] at hmem2
    obtain ⟨a, ha, hfa⟩ := hmem2
    rw [Finset.mem_val, regSet_deleteEvent s he userId hmem, Finset.mem_erase] at ha
    obtain ⟨hane, hain⟩ := ha
    have hsa : s.events a = some r := by
      rw [deleteEvent_some s he] at hfa
      rwa [show ({ s with
          events := updF s.events eventId none
          userRegistrations := fun k =>
            if k ∈ participantSet s eventId then
              (s.userRegistrations k).map (fun evs => evs.erase eventId)
            else s.userRegistrations k
          eventRegistrations := updF s.eventRegistrations eventId none } :
            MemoryStore).events a = s.events a from updF_ne _ _ _ _ hane] at hfa
    have hid := hco a hain
    rw [hsa] at hid
    simp at hid
    rw [hid]
    exact hane

/-- C5 witness: deleting event 100 removes it from user 1's registration
set and resolved registration list while user 1 itself survives. -/
theorem deleteEvent_cascade_witness :
    (demoStore2.deleteEvent 100).1 = some event1
    ∧ 100 ∉ registrationSet (demoStore2.deleteEvent 100).2 1
    ∧ (demoStore2.deleteEvent 100).2.getUserById 1 = some user1
    ∧ ∀ r ∈ (demoStore2.deleteEvent 100).2.getUserRegistrations 1,
        r.id ≠ 100 := by
  have h := (deleteEvent_cascade demoStore2 1 100 user1 event1).2
    (by decide) (by decide) (by decide)
  exact ⟨h.1, h.2.2.2.2.1, h.2.2.2.2.2.1, h.2.2.2.2.2.2 (by decide)⟩

lemma invariant_empty : Invariant MemoryStore.empty := by
  refine ⟨fun U E => ?_, fun U E h => ?_, fun U E h => ?_⟩
  · simp [participantSet, registrationSet, MemoryStore.empty]
  · simp [participantSet, MemoryStore.empty] at h
  · simp [registrationSet, MemoryStore.empty] at h

lemma regSet_createUser (s : MemoryStore) (u : User) (U : Nat) :
    registrationSet (s.createUser u).2 U
      = if U = u.id then ∅ else registrationSet s U := by
  show (updF s.userRegistrations u.id (some ∅) U).getD ∅ = _
  by_cases h : U = u.id <;> simp [updF, h, registrationSet]

lemma invariant_createUser (s : MemoryStore) (u : User) (h : Invariant s)
    (hf : s.users u.id = none) : Invariant (s.createUser u).2 := by
  obtain ⟨hm, hp, hr⟩ := h
  refine ⟨fun U E => ?_, fun U E hmem => ?_, fun U E hmem => ?_⟩
  · rw [show participantSet (s.createUser u).2 E = participantSet s E from rfl,
      regSet_createUser s u U]
    by_cases hU : U = u.id
    · subst hU
      rw [if_pos rfl]
      simp only [Finset.not_mem_empty, iff_false]
      intro hmem
      have := hp u.id E hmem
      rw [hf] at this
      simp at this
    · rw [if_neg hU]
      exact hm U E
  · have hs := hp U E hmem
    show (updF s.users u.id (some u) U).isSome
    by_cases hU : U = u.id
    · simp [updF, hU]
    · simpa [updF, hU] using hs
  · rw [regSet_createUser s u U] at hmem
    by_cases hU : U = u.id
    · rw [if_pos hU] at hmem
      simp at hmem
    · rw [if_neg hU] at hmem
      exact hr U E hmem

lemma partSet_createEvent (s : MemoryStore) (e : Event) (E : Nat) :
    participantSet (s.createEvent e).2 E
      = if E = e.id then ∅ else participantSet s E := by
  show (updF s.eventRegistrations e.id (some ∅) E).getD ∅ = _
  by_cases h : E = e.id <;> simp [updF, h, participantSet]

lemma invariant_createEvent (s : MemoryStore) (e : Event) (h : Invariant s)
    (hf : s.events e.id = none) : Invariant (s.createEvent e).2 := by
  obtain ⟨hm, hp, hr⟩ := h
  refine ⟨fun U E => ?_, fun U E hmem => ?_, fun U E hmem => ?_⟩
  · rw [show registrationSet (s.createEvent e).2 U = registrationSet s U from rfl,
      partSet_createEvent s e E]
    by_cases hE : E = e.id
    · subst hE
      rw [if_pos rfl]
      simp only [Finset.not_mem_empty, false_iff]
      intro hmem
      have := hr U e.id hmem
      rw [hf] at this
      simp at this
    · rw [if_neg hE]
      exact hm U E
  · rw [partSet_createEvent s e E] at hmem
    by_cases hE : E = e.id
    · rw [if_pos hE] at hmem
      simp at hmem
    · rw [if_neg hE] at hmem
      exact hp U E hmem
  · have hs := hr U E hmem
    show (updF s.events e.id (some e) E).isSome
    by_cases hE : E = e.id
    · simp [updF, hE]
    · simpa [updF, hE] using hs

lemma invariant_updateUser (s : MemoryStore) (id : Nat) (updates : UserUpdates)
    (h : Invariant s) : Invariant (s.updateUser id updates).2 := by
  obtain ⟨hm, hp, hr⟩ := h
  cases hca : s.users id with
  | none =>
      have heq : (s.updateUser id updates).2 = s := by
        unfold MemoryStore.updateUser
        rw [hca]
      rw [heq]
      exact ⟨hm, hp, hr⟩
  | some u0 =>
      have heq : (s.updateUser id updates).2
          = { s with users := updF s.users id (some (assignUser u0 updates)) } := by
        unfold MemoryStore.updateUser
        rw [hca]
      rw [heq]
      refine ⟨hm, fun U E hmem => ?_, hr⟩
      show (updF s.users id (some (assignUser u0 updates)) U).isSome
      by_cases hU : U = id
      · simp [updF, hU]
      · simpa [updF, hU] using hp U E hmem

lemma invariant_updateEvent (s : MemoryStore) (id : Nat) (updates : EventUpdates)
    (h : Invariant s) : Invariant (s.updateEvent id updates).2 := by
  obtain ⟨hm, hp, hr⟩ := h
  cases hca : s.events id with
  | none =>
      have heq : (s.updateEvent id updates).2 = s := by
        unfold MemoryStore.updateEvent
        rw [hca]
      rw [heq]
      exact ⟨hm, hp, hr⟩
  | some e0 =>
      have heq : (s.updateEvent id updates).2
          = { s with events := updF s.events id (some (assignEvent e0 updates)) } := by
        unfold MemoryStore.updateEvent
        rw [hca]
      rw [heq]
      refine ⟨hm, hp, fun U E hmem => ?_⟩
      show (updF s.events id (some (assignEvent e0 updates)) E).isSome
      by_cases hE : E = id
      · simp [updF, hE]
      · simpa [updF, hE] using hr U E hmem

lemma regSet_deleteUser (s : MemoryStore) {id : Nat} {u : User}
    (hu : s.users id = some u) (U : Nat) :
    registrationSet (s.deleteUser id).2 U
      = if U = id then ∅ else registrationSet s U := by
  rw [deleteUser_some s hu]
  show (updF s.userRegistrations id none U).getD ∅ = _
  by_cases h : U = id <;> simp [updF, h, registrationSet]

lemma invariant_deleteUser (s : MemoryStore) (id : Nat) (h : Invariant s) :
    Invariant (s.deleteUser id).2 := by
  obtain ⟨hm, hp, hr⟩ := h
  cases hca : s.users id with
  | none =>
      rw [deleteUser_none s hca]
      exact ⟨hm, hp, hr⟩
  | some u0 =>
      refine ⟨fun U E => ?_, fun U E hmem => ?_, fun U E hmem => ?_⟩
      · rw [partSet_deleteUser s hca E, regSet_deleteUser s hca U]
        by_cases hU : U = id
        · subst hU
          simp [Finset.not_mem_erase]
        · rw [if_neg hU, Finset.mem_erase]
          constructor
          · rintro ⟨_, hx⟩
            exact (hm U E).mp hx
          · intro hx
            exact ⟨hU, (hm U E).mpr hx⟩
      · rw [partSet_deleteUser s hca E, Finset.mem_erase] at hmem
        obtain ⟨hne, hmem⟩ := hmem
        have hs := hp U E hmem
        rw [deleteUser_some s hca]
        show (updF s.users id none U).isSome
        simpa [updF, hne] using hs
      · rw [regSet_deleteUser s hca U] at hmem
        by_cases hU : U = id
        · rw [if_pos hU] at hmem
          simp at hmem
        · rw [if_neg hU] at hmem
          have hs := hr U E hmem
          rw [deleteUser_some s hca]
          exact hs

lemma partSet_deleteEvent (s : MemoryStore) {id : Nat} {ev : Event}
    (he : s.events id = some ev) (E : Nat) :
    participantSet (s.deleteEvent id).2 E
      = if E = id then ∅ else participantSet s E := by
  rw [deleteEvent_some s he]
  show (updF s.eventRegistrations id none E).getD ∅ = _
  by_cases h : E = id <;> simp [updF, h, participantSet]

lemma regSet_deleteEvent_all (s : MemoryStore) {id : Nat} {ev : Event}
    (he : s.events id = some ev) (U : Nat) :
    registrationSet (s.deleteEvent id).2 U
      = if U ∈ participantSet s id then (registrationSet s U).erase id
        else registrationSet s U := by
  rw [deleteEvent_some s he]
  show ((if U ∈ participantSet s id then
      (s.userRegistrations U).map (fun evs => evs.erase id)
    else s.userRegistrations U)).getD ∅ = _
  by_cases h : U ∈ participantSet s id
  · rw [if_pos h, if_pos h]
    exact getD_map_erase _ _
  · rw [if_neg h, if_neg h]
    rfl

lemma invariant_deleteEvent (s : MemoryStore) (id : Nat) (h : Invariant s) :
    Invariant (s.deleteEvent id).2 := by
  obtain ⟨hm, hp, hr⟩ := h
  cases hca : s.events id with
  | none =>
      rw [deleteEvent_none s hca]
      exact ⟨hm, hp, hr⟩
  | some e0 =>
      refine ⟨fun U E => ?_, fun U E hmem => ?_, fun U E hmem => ?_⟩
      · rw [partSet_deleteEvent s hca E, regSet_deleteEvent_all s hca U]
        by_cases hE : E = id
        · subst hE
          rw [if_pos rfl]
          simp only [Finset.not_mem_empty, false_iff]
          by_cases hU : U ∈ participantSet s E
          · rw [if_pos hU]
            exact Finset.not_mem_erase E _
          · rw [if_neg hU]
            intro hx
            exact hU ((hm U E).mpr hx)
        · rw [if_neg hE]
          by_cases hU : U ∈ participantSet s id
          · rw [if_pos hU, Finset.mem_erase]
            constructor
            · intro hx
              exact ⟨hE, (hm U E).mp hx⟩
            · rintro ⟨_, hx⟩
              exact (hm U E).mpr hx
          · rw [if_neg hU]
            exact hm U E
      · rw [partSet_deleteEvent s hca E] at hmem
        by_cases hE : E = id
        · rw [if_pos hE] at hmem
          simp at hmem
        · rw [if_neg hE] at hmem
          have hs := hp U E hmem
          rw [deleteEvent_some s hca]
          exact hs
      · rw [regSet_deleteEvent_all s hca U] at hmem
        have hmem2 : E ≠ id ∧ E ∈ registrationSet s U := by
          by_cases hU : U ∈ participantSet s id
          · rw [if_pos hU, Finset.mem_erase] at hmem
            exact hmem
          · rw [if_neg hU] at hmem
            refine ⟨?_, hmem⟩
            intro hE
            subst hE
            exact hU ((hm U E).mpr hmem)
        obtain ⟨hne, hmem2⟩ := hmem2
        have hs := hr U E hmem2
        rw [deleteEvent_some s hca]
        show (updF s.events id none E).isSome
        simpa [updF, hne] using hs

lemma partSet_register (s : MemoryStore) {userId eventId : Nat} {u : User}
    {ev : Event} (hu : s.users userId = some u) (he : s.events eventId = some ev)
    (hn : userId ∉ participantSet s eventId) (E : Nat) :
    participantSet (s.registerUserForEvent userId eventId).2 E
      = if E = eventId then insert userId (participantSet s eventId)
        else participantSet s E := by
  rw [register_success s hu he hn]
  show (updF s.eventRegistrations eventId
    (some (insert userId (participantSet s eventId))) E).getD ∅ = _
  by_cases h : E = eventId <;> simp [updF, h, participantSet]

lemma regSet_register (s : MemoryStore) {userId eventId : Nat} {u : User}
    {ev : Event} (hu : s.users userId = some u) (he : s.events eventId = some ev)
    (hn : userId ∉ participantSet s eventId) (U : Nat) :
    registrationSet (s.registerUserForEvent userId eventId).2 U
      = if U = userId then insert eventId (registrationSet s userId)
        else registrationSet s U := by
  rw [register_success s hu he hn]
  show (updF s.userRegistrations userId
    (some (insert eventId (registrationSet s userId))) U).getD ∅ = _
  by_cases h : U = userId <;> simp [updF, h, registrationSet]

lemma invariant_register (s : MemoryStore) (userId eventId : Nat)
    (h : Invariant s) : Invariant (s.registerUserForEvent userId eventId).2 := by
  obtain ⟨hm, hp, hr⟩ := h
  by_cases hfail : s.users userId = none ∨ s.events eventId = none
      ∨ userId ∈ participantSet s eventId
  · rw [register_failure s userId eventId hfail]
    exact ⟨hm, hp, hr⟩
  · push_neg at hfail
    obtain ⟨hu0, he0, hn⟩ := hfail
    cases hca : s.users userId with
    | none => exact absurd hca hu0
    | some u0 =>
        cases hcb : s.events eventId with
        | none => exact absurd hcb he0
        | some e0 =>
            refine ⟨fun U E => ?_, fun U E hmem => ?_, fun U E hmem => ?_⟩
            · rw [partSet_register s hca hcb hn E, regSet_register s hca hcb hn U]
              by_cases hE : E = eventId <;> by_cases hU : U = userId
              · subst hE
                subst hU
                simp
              · subst hE
                rw [if_pos rfl, if_neg hU]
                simp only [Finset.mem_insert, hU, false_or]
                exact hm U E
              · subst hU
                rw [if_neg hE, if_pos rfl]
                simp only [Finset.mem_insert, hE, false_or]
                exact hm U E
              · rw [if_neg hE, if_neg hU]
                exact hm U E
            · rw [partSet_register s hca hcb hn E] at hmem
              rw [register_success s hca hcb hn]
              show (s.users U).isSome
              by_cases hE : E = eventId
              · rw [if_pos hE, Finset.mem_insert] at hmem
                rcases hmem with rfl | hmem
                · simp [hca]
                · exact hp U eventId hmem
              · rw [if_neg hE] at hmem
                exact hp U E hmem
            · rw [regSet_register s hca hcb hn U] at hmem
              rw [register_success s hca hcb hn]
              show (s.events E).isSome
              by_cases hU : U = userId
              · rw [if_pos hU, Finset.mem_insert] at hmem
                rcases hmem with rfl | hmem
                · simp [hcb]
                · exact hr userId E hmem
              · rw [if_neg hU] at hmem
                exact hr U E hmem

lemma invariant_unregister (s : MemoryStore) (userId eventId : Nat)
    (h : Invariant s) : Invariant (s.unregisterUserFromEvent userId eventId).2 := by
  obtain ⟨hm, hp, hr⟩ := h
  refine ⟨fun U E => ?_, fun U E hmem => ?_, fun U E hmem => ?_⟩
  · rw [partSet_unregister s userId eventId E, regSet_unregister s userId eventId U]
    by_cases hE : E = eventId <;> by_cases hU : U = userId
    · subst hE
      subst hU
      simp [Finset.not_mem_erase]
    · subst hE
      rw [if_pos rfl, if_neg hU]
      simp only [Finset.mem_erase, hU, ne_eq, not_false_eq_true, true_and]
      exact hm U E
    · subst hU
      rw [if_neg hE, if_pos rfl]
      simp only [Finset.mem_erase, hE, ne_eq, not_false_eq_true, true_and]
      exact hm U E
    · rw [if_neg hE, if_neg hU]
      exact hm U E
  · rw [partSet_unregister s userId eventId E] at hmem
    show (s.users U).isSome
    by_cases hE : E = eventId
    · rw [if_pos hE, Finset.mem_erase] at hmem
      exact hp U eventId hmem.2
    · rw [if_neg hE] at hmem
      exact hp U E hmem
  · rw [regSet_unregister s userId eventId U] at hmem
    show (s.events E).isSome
    by_cases hU : U = userId
    · rw [if_pos hU, Finset.mem_erase] at hmem
      exact hr userId E hmem.2
    · rw [if_neg hU] at hmem
      exact hr U E hmem

lemma invariant_runOps (ops : List Op) :
    ∀ s : MemoryStore, Invariant s → freshIds s ops = true →
      Invariant (runOps s ops) := by
  induction ops with
  | nil => exact fun s h _ => h
  | cons op rest ih =>
      intro s h hf
      cases op with
      | createUser u =>
          simp only [freshIds, Bool.and_eq_true, Option.isNone_iff_eq_none] at hf
          exact ih _ (invariant_createUser s u h hf.1) hf.2
      | createEvent e =>
          simp only [freshIds, Bool.and_eq_true, Option.isNone_iff_eq_none] at hf
          exact ih _ (invariant_createEvent s e h hf.1) hf.2
      | updateUser id updates =>
          exact ih _ (invariant_updateUser s id updates h) hf
      | updateEvent id updates =>
          exact ih _ (invariant_updateEvent s id updates h) hf
      | deleteUser id =>
          exact ih _ (invariant_deleteUser s id h) hf
      | deleteEvent id =>
          exact ih _ (invariant_deleteEvent s id h) hf
      | registerUserForEvent userId eventId =>
          exact ih _ (invariant_register s userId eventId h) hf
      | unregisterUserFromEvent userId eventId =>
          exact ih _ (invariant_unregister s userId eventId h) hf
      | clear =>
          exact ih _ invariant_empty hf

/-- C1 counterexample: running createUser user1, createEvent event1,
registerUserForEvent 1 100, then createUser with a record reusing id 1
leaves user 1 inside event 100's participant set while user 1's
registration set was reset to empty, so the mirror invariant fails. -/
theorem mirror_violation :
    ¬ (1 ∈ participantSet (runOps MemoryStore.empty dupCreateOps) 100
        ↔ 100 ∈ registrationSet (runOps MemoryStore.empty dupCreateOps) 1) := by
  decide

/-- C1 amended: for every sequence of store operations starting from the
empty store in which createUser and createEvent are only invoked with
identifiers not currently stored, after each operation a user belongs to
an event's participant set iff the event belongs to the user's
registration set. -/
theorem mirror_invariant (ops : List Op)
    (h : freshIds MemoryStore.empty ops = true) :
    MirrorConsistent (runOps MemoryStore.empty ops) :=
  (invariant_runOps ops MemoryStore.empty invariant_empty h).mirror

/-- C1 amended witness: a seven-step fresh-id sequence mixing creates,
registers, an unregister and a delete ends mirror-consistent. -/
theorem mirror_invariant_witness :
    MirrorConsistent (runOps MemoryStore.empty freshOps) :=
  mirror_invariant freshOps (by decide)

end EventMgmt
